import Mathlib

/-!
# A verification model of the `rust-web` repository

Shallow embedding of `src/context.rs` and `src/persistence.rs`.

Modelling conventions:

* The `todos` Postgres table is modelled as `TodosTable`: the list of rows, the
  current value of the `id` sequence, and the database clock (`now`, used for
  the `created_at` column default).  The four SQL statements issued by
  `TodoRepoPostgres` (`SELECT ... where id = $1`, `INSERT ... RETURNING id`,
  `UPDATE ... SET x = COALESCE($n, x) ... RETURNING id`,
  `DELETE ... RETURNING id`) are given their standard SQL semantics over this
  state.
* A Rust `panic!` (an `unwrap()` of an error or of a missing row) is modelled
  by `Option.none` at the meta level: a function whose Rust body can panic
  returns `Option` here, and `none` means the operation aborts instead of
  producing a value.  Domain-level optionality (`fetch_optional`,
  `Option<i64>`) stays inside the value, as in the Rust types.
* Rust `i64` ids are modelled as `Int` and `u64` as `Nat`; no operation here
  can overflow (the only arithmetic is the sequence increment).
* `f64` values are modelled by `FloatVal`: a finite value carried exactly as a
  rational, or an infinity, or NaN.  IEEE-754 rounding of finite results and
  overflow of finite arithmetic to infinity are NOT modelled (floating-point
  arithmetic is outside the embedding), so no theorem below relies on the
  finite result of a `FloatVal` multiplication or division; only the parse
  failure and special-value structure, which follows Rust's `f64::from_str`
  grammar, carries proof weight.
-/

namespace RustWeb

/-! ## persistence.rs : data model -/

/-- The `sqlx::types::time::PrimitiveDateTime` timestamp stored in
`created_at`.  The repository only ever constructs it from the database
default and renders it with `to_string`, so the model identifies a timestamp
with its rendering. -/
structure PrimitiveDateTime where
  render : String
deriving DecidableEq, Repr

/-- `PrimitiveDateTime::to_string` (the `Display` rendering used by
`Todo::to_dto`). -/
def PrimitiveDateTime.to_string (d : PrimitiveDateTime) : String :=
  d.render

/-- `struct Todo` of `src/persistence.rs` (one row of the `todos` table). -/
structure Todo where
  id : Int
  title : String
  description : String
  done : Bool
  created_at : PrimitiveDateTime
deriving DecidableEq, Repr

/-- `struct TodoDTO` of `src/persistence.rs`. -/
structure TodoDTO where
  id : Int
  title : String
  description : String
  done : Bool
  created_at : String
deriving DecidableEq, Repr

/-- `Todo::to_dto` of `src/persistence.rs`. -/
def Todo.to_dto (t : Todo) : TodoDTO :=
  { id := t.id
    title := t.title
    description := t.description
    done := t.done
    created_at := t.created_at.to_string }

/-- The state of the `todos` table: its rows, the next value of the id
sequence (the migrations folder that declares the schema is not part of
`src/`; the `id bigserial` sequence and the `created_at` default are modelled
from the spec's "identifier (integer, database-assigned)" and "creation
timestamp"), and the database clock. -/
structure TodosTable where
  rows : List Todo
  nextId : Int
  now : PrimitiveDateTime
deriving DecidableEq, Repr

/-- A table is well formed when every stored id is below the sequence value;
every id the sequence has ever handed out maintains this. -/
def TodosTable.WF (db : TodosTable) : Prop :=
  ∀ t ∈ db.rows, t.id < db.nextId

instance (db : TodosTable) : Decidable db.WF := by
  unfold TodosTable.WF; infer_instance

/-! ## persistence.rs : `TodoRepoPostgres` operations -/

/-- `TodoRepoPostgres::get_todo`:
`SELECT * from todos where id = $1` with `fetch_optional`.  Absence is a
domain value (`none`), not an abort. -/
def get_todo (db : TodosTable) (id : Int) : Option Todo :=
  db.rows.find? (fun t => t.id == id)

/-- `TodoRepoPostgres::create_todo`:
`INSERT INTO todos (title, description, done) VALUES ($1, $2, $3) RETURNING id`
with `$3 = false`; the database assigns `id` from the sequence and
`created_at` from the clock.  Returns the new id and the new table state. -/
def create_todo (db : TodosTable) (title description : String) :
    Int × TodosTable :=
  let row : Todo :=
    { id := db.nextId
      title := title
      description := description
      done := false
      created_at := db.now }
  (db.nextId, { db with rows := db.rows ++ [row], nextId := db.nextId + 1 })

/-- The per-row effect of
`SET title = COALESCE($1, title), description = COALESCE($2, description),
done = COALESCE($3, done)`: a field keeps its stored value when the
corresponding parameter is absent. -/
def coalesceRow (title description : Option String) (done : Option Bool)
    (t : Todo) : Todo :=
  { t with
      title := title.getD t.title
      description := description.getD t.description
      done := done.getD t.done }

/-- `TodoRepoPostgres::update_todo`:
`UPDATE todos SET ... where id = $4 RETURNING id` with `fetch_optional`.
Every matching row is rewritten through `coalesceRow`; the returned value is
`some id` exactly when a row matched. -/
def update_todo (db : TodosTable) (id : Int)
    (title description : Option String) (done : Option Bool) :
    Option Int × TodosTable :=
  let result := if db.rows.any (fun t => t.id == id) then some id else none
  (result,
    { db with
        rows := db.rows.map
          (fun t => if t.id == id then coalesceRow title description done t
                    else t) })

/-- `TodoRepoPostgres::delete_todo`:
`DELETE FROM todos where id = $1 RETURNING id` with `fetch_one` and
`unwrap()`.  When no row matches, `fetch_one` yields `RowNotFound` and the
`unwrap()` panics: the meta-level `none`.  There is no domain-level
"not found" value — the Rust return type is a bare `i64`. -/
def delete_todo (db : TodosTable) (id : Int) : Option (Int × TodosTable) :=
  if db.rows.any (fun t => t.id == id) then
    some (id, { db with rows := db.rows.filter (fun t => !(t.id == id)) })
  else
    none

/-! ## context.rs : f64 model and currency conversion -/

/-- An `f64` value as this code observes it: a finite value (carried exactly
as a rational; rounding is not modelled), a signed infinity (`neg = true` for
the negative one), or NaN. -/
inductive FloatVal where
  | num : ℚ → FloatVal
  | inf : Bool → FloatVal
  | nan : FloatVal
deriving DecidableEq, Repr

/-- The special-value structure of `f64` multiplication: NaN propagates,
`±inf * 0 = NaN`, infinities multiply by sign.  Finite products are carried
as exact rationals: the IEEE-754 rounding and overflow-to-infinity of the
source's `*` are not modelled, so no theorem may rely on a finite result of
this function. -/
def FloatVal.mul : FloatVal → FloatVal → FloatVal
  | .nan, _ => .nan
  | _, .nan => .nan
  | .inf s, .inf t => .inf (xor s t)
  | .inf s, .num q => if q = 0 then .nan else .inf (xor s (q < 0))
  | .num q, .inf t => if q = 0 then .nan else .inf (xor (q < 0) t)
  | .num a, .num b => .num (a * b)

/-- The special-value structure of `f64` division: NaN propagates,
`inf / inf = NaN`, `x / 0` is a signed infinity for finite nonzero `x` and
NaN for `0 / 0` (negative zero is not modelled).  Finite quotients are
carried as exact rationals: the IEEE-754 rounding (and overflow) of the
source's `/` are not modelled, so no theorem may rely on a finite result of
this function. -/
def FloatVal.div : FloatVal → FloatVal → FloatVal
  | .nan, _ => .nan
  | _, .nan => .nan
  | .inf _, .inf _ => .nan
  | .inf s, .num q => .inf (xor s (q < 0))
  | .num _, .inf _ => .num 0
  | .num a, .num b =>
      if b = 0 then (if a = 0 then .nan else .inf (a < 0)) else .num (a / b)

/-- The `Display` rendering used by `format!("{}", ...)`.  The decimal
rendering of finite values is abstracted to the rational's own rendering; no
claim depends on the printed digits. -/
def FloatVal.render : FloatVal → String
  | .num q => toString q
  | .inf b => if b then "-inf" else "inf"
  | .nan => "NaN"

/-- The digits at the front of a character list, and the rest. -/
def splitDigits (cs : List Char) : List Char × List Char :=
  (cs.takeWhile Char.isDigit, cs.dropWhile Char.isDigit)

/-- The value of a digit string. -/
def digitsToNat (ds : List Char) : Nat :=
  ds.foldl (fun acc c => acc * 10 + (c.toNat - 48)) 0

/-- The exponent suffix `(('e' | 'E') Sign? Count)?` of Rust's `f64`
grammar, applied to an already-parsed mantissa; `none` when the remaining
characters are not exactly an (optional) well-formed exponent. -/
def applyExp (m : ℚ) : List Char → Option ℚ
  | [] => some m
  | c :: cs =>
    if c == 'e' || c == 'E' then
      let (neg, cs2) :=
        match cs with
        | '+' :: t => (false, t)
        | '-' :: t => (true, t)
        | t => (false, t)
      let (ds, rest) := splitDigits cs2
      if ds.isEmpty || !rest.isEmpty then none
      else if neg then some (m / (10 : ℚ) ^ digitsToNat ds)
      else some (m * (10 : ℚ) ^ digitsToNat ds)
    else none

/-- The `Number` production of Rust's `f64::from_str` grammar
(`Count '.'? Count? Exp?` or `'.' Count Exp?`), evaluated exactly. -/
def parseNumber (neg : Bool) (cs : List Char) : Option ℚ :=
  let (ip, rest) := splitDigits cs
  let fin : List Char → List Char → List Char → Option ℚ :=
    fun ip fp rest =>
      let m : ℚ :=
        (digitsToNat ip : ℚ) + (digitsToNat fp : ℚ) / (10 : ℚ) ^ fp.length
      (applyExp m rest).map (fun q => if neg then -q else q)
  match rest with
  | '.' :: rest2 =>
      let (fp, rest3) := splitDigits rest2
      if ip.isEmpty && fp.isEmpty then none
      else fin ip fp rest3
  | _ => if ip.isEmpty then none else fin ip [] rest

/-- `str::parse::<f64>` as used by the conversion handlers:
`Sign? ('inf' | 'infinity' | 'nan' | Number)`, the keywords case-insensitive,
per the `FromStr` implementation for `f64`.  `none` is a parse error (the
Rust `Err` that the callers `unwrap()`). -/
def parseF64 (s : String) : Option FloatVal :=
  let (neg, cs) :=
    match s.data with
    | '+' :: t => (false, t)
    | '-' :: t => (true, t)
    | t => (false, t)
  let lower := cs.map Char.toLower
  if lower = ['i', 'n', 'f'] ∨
      lower = ['i', 'n', 'f', 'i', 'n', 'i', 't', 'y'] then
    some (.inf neg)
  else if lower = ['n', 'a', 'n'] then
    some .nan
  else
    (parseNumber neg cs).map .num

/-- `convert_usd_to_gbp` of `src/context.rs`:
`format!("{}", usd.parse::<f64>().unwrap() * gbp_to_usd_rate)`.
The `unwrap()` of a parse failure panics: the meta-level `none`. -/
def convert_usd_to_gbp (usd : String) (gbp_to_usd_rate : FloatVal) :
    Option String :=
  (parseF64 usd).map (fun x => (x.mul gbp_to_usd_rate).render)

/-- `convert_gbp_to_usd` of `src/context.rs`:
`format!("{}", gbp.parse::<f64>().unwrap() / gbp_to_usd_rate)`.
The `unwrap()` of a parse failure panics: the meta-level `none`. -/
def convert_gbp_to_usd (gbp : String) (gbp_to_usd_rate : FloatVal) :
    Option String :=
  (parseF64 gbp).map (fun x => (x.div gbp_to_usd_rate).render)

/-! ## context.rs : user CRUD (graduation project) -/

/-- `struct User` of `src/context.rs` (`id` is `u64`). -/
structure User where
  id : Nat
  name : String
  email : String
deriving DecidableEq, Repr

/-- `struct UserState` of `src/context.rs`. -/
structure UserState where
  users : List User
deriving DecidableEq, Repr

/-- `struct UserDTO` of `src/context.rs`. -/
structure UserDTO where
  name : String
  email : String
deriving DecidableEq, Repr

/-- `create_user` of `src/context.rs`: builds a `User` with the hardcoded
`id: 1`, pushes it onto the shared list, and returns it. -/
def create_user (s : UserState) (body : UserDTO) : User × UserState :=
  let user : User := { id := 1, name := body.name, email := body.email }
  (user, { users := s.users ++ [user] })

/-- `update_user` of `src/context.rs`: finds the position of the first user
with the given id (`position(...)?`), reads it back (`get(idx)?`), builds the
replacement with the same id and the body's name and email, writes it at that
position, and returns it; both `?` operators yield `None` with the state
untouched. -/
def update_user (s : UserState) (id : Nat) (body : UserDTO) :
    Option User × UserState :=
  match s.users.findIdx? (fun u => u.id == id) with
  | none => (none, s)
  | some idx =>
    match s.users[idx]? with
    | none => (none, s)
    | some user =>
      let new_user : User := { id := user.id, name := body.name, email := body.email }
      (some new_user, { users := s.users.set idx new_user })

/-- `delete_user` of `src/context.rs`: removes the first user at the position
matching the id, `None` (state untouched) when there is none. -/
def delete_user (s : UserState) (id : Nat) : Option Unit × UserState :=
  match s.users.findIdx? (fun u => u.id == id) with
  | none => (none, s)
  | some idx => (some (), { users := s.users.eraseIdx idx })

/-! ## Concrete sample data for witnesses -/

/-- A sample timestamp. -/
def exDate : PrimitiveDateTime := ⟨"2024-01-01 0:00:00.0"⟩

/-- A sample row of the `todos` table. -/
def exTodoRow : Todo := ⟨1, "t", "d", false, exDate⟩

/-- A sample table state: one row with id 1, sequence at 2. -/
def exDB : TodosTable := ⟨[exTodoRow], 2, exDate⟩

/-- A sample user list with ids 1 and 2. -/
def exUsers : UserState := ⟨[⟨1, "a", "a@x"⟩, ⟨2, "b", "b@x"⟩]⟩

/-! ## Theorems -/

/-- C9: `Todo::to_dto` copies `id`, `title`, `description` and `done`
unchanged and renders `created_at` with `to_string`; no field is lost beyond
the timestamp's type. -/
theorem to_dto_preserves_fields (t : Todo) :
    t.to_dto.id = t.id ∧ t.to_dto.title = t.title ∧
    t.to_dto.description = t.description ∧ t.to_dto.done = t.done ∧
    t.to_dto.created_at = t.created_at.to_string :=
  ⟨rfl, rfl, rfl, rfl, rfl⟩

/-- C4: `update_todo` returns `some id` exactly when a row with that id
exists, and `none` exactly when no row matched. -/
theorem update_todo_some_iff_matched (db : TodosTable) (id : Int)
    (title description : Option String) (done : Option Bool) :
    ((update_todo db id title description done).1 = some id ↔
      ∃ t ∈ db.rows, t.id = id) ∧
    ((update_todo db id title description done).1 = none ↔
      ¬ ∃ t ∈ db.rows, t.id = id) := by
  have hany : db.rows.any (fun t => t.id == id) = true ↔
      ∃ t ∈ db.rows, t.id = id := by
    simp [List.any_eq_true]
  cases hb : db.rows.any (fun t => t.id == id) with
  | false =>
      have hne : ¬ ∃ t ∈ db.rows, t.id = id := by
        rw [← hany, hb]; simp
      simp [update_todo, hb, hne]
  | true =>
      have he : ∃ t ∈ db.rows, t.id = id := hany.mp hb
      simp [update_todo, hb, he]

/-- C4 witness: on the sample table, updating id 1 matches and updating id
99 does not. -/
theorem update_todo_some_iff_matched_witness :
    ((update_todo exDB 1 none none (some true)).1 = some 1 ↔
      ∃ t ∈ exDB.rows, t.id = 1) ∧
    ((update_todo exDB 99 none none (some true)).1 = none ↔
      ¬ ∃ t ∈ exDB.rows, t.id = 99) :=
  ⟨(update_todo_some_iff_matched exDB 1 none none (some true)).1,
   (update_todo_some_iff_matched exDB 99 none none (some true)).2⟩

/-- C7: `create_user` always returns (and appends) a user with the hardcoded
id 1, so after two calls the list holds two users with equal ids and the
identifier-uniqueness invariant fails. -/
theorem create_user_id_always_one (s : UserState) (body body2 : UserDTO) :
    (create_user s body).1.id = 1 ∧
    (create_user s body).1 ∈ (create_user s body).2.users ∧
    ¬ ((create_user (create_user s body).2 body2).2.users.Pairwise
        (fun a b => a.id ≠ b.id)) := by
  refine ⟨rfl, by simp [create_user], ?_⟩
  intro hp
  simp only [create_user] at hp
  rw [List.pairwise_append] at hp
  exact hp.2.2 ⟨1, body.name, body.email⟩ (by simp)
    ⟨1, body2.name, body2.email⟩ (by simp) rfl

/-- C7 witness: two creations from the empty state give a first user with
id 1 and a list violating id uniqueness. -/
theorem create_user_id_always_one_witness :
    (create_user ⟨[]⟩ ⟨"a", "a@x"⟩).1.id = 1 ∧
    ¬ ((create_user (create_user ⟨[]⟩ ⟨"a", "a@x"⟩).2 ⟨"b", "b@x"⟩).2.users.Pairwise
        (fun a b => a.id ≠ b.id)) :=
  ⟨(create_user_id_always_one ⟨[]⟩ ⟨"a", "a@x"⟩ ⟨"b", "b@x"⟩).1,
   (create_user_id_always_one ⟨[]⟩ ⟨"a", "a@x"⟩ ⟨"b", "b@x"⟩).2.2⟩

/-- C8: when the input string does not parse as an `f64`, both conversion
handlers abort (the `unwrap()` panic, modelled as `none`) instead of
producing any response value. -/
theorem parse_failure_aborts (s : String) (rate : FloatVal)
    (h : parseF64 s = none) :
    convert_usd_to_gbp s rate = none ∧ convert_gbp_to_usd s rate = none := by
  constructor <;> simp [convert_usd_to_gbp, convert_gbp_to_usd, h]

/-- C8 witness: "abc" does not parse, and both conversions abort on it. -/
theorem parse_failure_aborts_witness :
    convert_usd_to_gbp "abc" (FloatVal.num (13 / 10)) = none ∧
    convert_gbp_to_usd "abc" (FloatVal.num (13 / 10)) = none :=
  parse_failure_aborts "abc" (FloatVal.num (13 / 10)) (by decide)

/-- C1: `update_todo` rewrites exactly the matching rows through
`coalesceRow`; a row not matching the id is untouched; `coalesceRow` keeps
`id` and `created_at`, keeps each of `title`/`description`/`done` when the
corresponding parameter is absent and sets it when present; and an update
with all three parameters absent leaves the whole table unchanged. -/
theorem update_todo_coalesce_frame (db : TodosTable) (id : Int)
    (title description : Option String) (done : Option Bool) :
    (update_todo db id none none none).2 = db ∧
    (update_todo db id title description done).2.rows =
      db.rows.map (fun t =>
        if t.id == id then coalesceRow title description done t else t) ∧
    (∀ t : Todo, t.id ≠ id →
      (if t.id == id then coalesceRow title description done t else t) = t) ∧
    (∀ t : Todo, (coalesceRow title description done t).id = t.id ∧
      (coalesceRow title description done t).created_at = t.created_at) ∧
    (∀ t : Todo, title = none →
      (coalesceRow title description done t).title = t.title) ∧
    (∀ t : Todo, description = none →
      (coalesceRow title description done t).description = t.description) ∧
    (∀ t : Todo, done = none →
      (coalesceRow title description done t).done = t.done) ∧
    (∀ t : Todo, ∀ v, title = some v →
      (coalesceRow title description done t).title = v) ∧
    (∀ t : Todo, ∀ v, description = some v →
      (coalesceRow title description done t).description = v) ∧
    (∀ t : Todo, ∀ v, done = some v →
      (coalesceRow title description done t).done = v) := by
  have hco : ∀ t : Todo, coalesceRow none none none t = t := fun _ => rfl
  refine ⟨?_, rfl, ?_, fun t => ⟨rfl, rfl⟩, ?_, ?_, ?_, ?_, ?_, ?_⟩
  · show ({ db with rows := db.rows.map (fun t =>
        if t.id == id then coalesceRow none none none t else t) } :
        TodosTable) = db
    rw [show db.rows.map (fun t =>
        if t.id == id then coalesceRow none none none t else t) = db.rows by
      simp [hco]]
  · intro t h
    simp [h]
  · intro t h
    simp [h, coalesceRow]
  · intro t h
    simp [h, coalesceRow]
  · intro t h
    simp [h, coalesceRow]
  · intro t v h
    simp [h, coalesceRow]
  · intro t v h
    simp [h, coalesceRow]
  · intro t v h
    simp [h, coalesceRow]

/-- C1 witness: on the sample table, the no-op update leaves the state
unchanged, and an update with only `done` present changes only `done`. -/
theorem update_todo_coalesce_frame_witness :
    (update_todo exDB 1 none none none).2 = exDB ∧
    (coalesceRow none none (some true) exTodoRow).done = true ∧
    (coalesceRow none none (some true) exTodoRow).title = exTodoRow.title ∧
    (coalesceRow none none (some true) exTodoRow).description =
      exTodoRow.description ∧
    (coalesceRow none none (some true) exTodoRow).id = exTodoRow.id := by
  have h := update_todo_coalesce_frame exDB 1 none none (some true)
  exact ⟨(update_todo_coalesce_frame exDB 1 none none none).1,
    h.2.2.2.2.2.2.2.2.2 exTodoRow true rfl,
    h.2.2.2.2.1 exTodoRow rfl,
    h.2.2.2.2.2.1 exTodoRow rfl,
    (h.2.2.2.1 exTodoRow).1⟩

/-- C2: on a well-formed table, `create_todo` returns an id fresh for the
table, and reading that id back yields a row with the supplied title and
description, `done = false`, and the database timestamp. -/
theorem create_then_get (db : TodosTable) (title description : String)
    (h : db.WF) :
    (∀ t ∈ db.rows, t.id ≠ (create_todo db title description).1) ∧
    get_todo (create_todo db title description).2
        (create_todo db title description).1 =
      some { id := db.nextId, title := title, description := description,
             done := false, created_at := db.now } := by
  constructor
  · intro t ht
    exact ne_of_lt (h t ht)
  · simp only [get_todo, create_todo]
    rw [List.find?_append]
    have h1 : db.rows.find? (fun t => t.id == db.nextId) = none := by
      rw [List.find?_eq_none]
      intro t ht
      simp only [beq_iff_eq]
      exact ne_of_lt (h t ht)
    rw [h1, Option.none_or]
    simp [List.find?_cons]

/-- C2 witness: creating a todo on the sample table and reading back the
returned id yields the supplied fields with `done = false`. -/
theorem create_then_get_witness :
    get_todo (create_todo exDB "new title" "new desc").2
        (create_todo exDB "new title" "new desc").1 =
      some { id := 2, title := "new title", description := "new desc",
             done := false, created_at := exDate } :=
  (create_then_get exDB "new title" "new desc" (by decide)).2

/-- C3: when a row with the id exists, `delete_todo` returns that id (with
the row removed); when none exists, the `unwrap()` of `fetch_one`'s
`RowNotFound` panics — the meta-level `none` — instead of returning a
recoverable "not found" value (the Rust return type is a bare `i64`). -/
theorem delete_todo_returns_id_or_aborts (db : TodosTable) (id : Int) :
    ((∃ t ∈ db.rows, t.id = id) →
      delete_todo db id =
        some (id, { db with
          rows := db.rows.filter (fun t => !(t.id == id)) })) ∧
    ((¬ ∃ t ∈ db.rows, t.id = id) → delete_todo db id = none) := by
  constructor
  · intro h
    have hb : db.rows.any (fun t => t.id == id) = true := by
      simpa [List.any_eq_true] using h
    simp [delete_todo, hb]
  · intro h
    have hb : db.rows.any (fun t => t.id == id) = false := by
      simpa [List.any_eq_true] using h
    simp [delete_todo, hb]

/-- C3 witness: on the sample table, deleting id 1 returns 1 and deleting
the absent id 99 aborts. -/
theorem delete_todo_returns_id_or_aborts_witness :
    delete_todo exDB 1 =
      some (1, { exDB with
        rows := exDB.rows.filter (fun t => !(t.id == 1)) }) ∧
    delete_todo exDB 99 = none :=
  ⟨(delete_todo_returns_id_or_aborts exDB 1).1 ⟨exTodoRow, by decide, rfl⟩,
   (delete_todo_returns_id_or_aborts exDB 99).2 (by decide)⟩

/-- C5: after a successful `delete_todo`, `get_todo` on the same identifier
yields `none` — a normal optional value of the read path, not an abort. -/
theorem delete_then_get_absent (db : TodosTable) (id rid : Int)
    (db' : TodosTable) (h : delete_todo db id = some (rid, db')) :
    get_todo db' id = none := by
  unfold delete_todo at h
  split at h
  · injection h with h2
    injection h2 with h3 h4
    subst h4
    show List.find? (fun t => t.id == id)
      (db.rows.filter (fun t => !(t.id == id))) = none
    rw [List.find?_eq_none]
    intro t ht
    have := (List.mem_filter.mp ht).2
    simpa using this
  · exact Option.noConfusion h

/-- C5 witness: deleting id 1 from the sample table then reading id 1
yields `none`. -/
theorem delete_then_get_absent_witness :
    get_todo ⟨[], 2, exDate⟩ 1 = none :=
  delete_then_get_absent exDB 1 1 ⟨[], 2, exDate⟩ (by decide)

/-- C10: `update_user` succeeds exactly when a user with the given id is in
the list; on success the returned record keeps the stored user's id and
takes the body's name and email, the list is the original with only the
matched position replaced by that record, and every other position is
unchanged; on failure it returns `none` and the state is unchanged. -/
theorem update_user_frame (s : UserState) (id : Nat) (body : UserDTO) :
    ((update_user s id body).1.isSome ↔ ∃ u ∈ s.users, u.id = id) ∧
    (∀ u, (update_user s id body).1 = some u →
      u.id = id ∧ u.name = body.name ∧ u.email = body.email ∧
      ∃ i old, s.users[i]? = some old ∧ old.id = id ∧ u.id = old.id ∧
        (update_user s id body).2.users = s.users.set i u ∧
        (∀ j, j ≠ i →
          (update_user s id body).2.users[j]? = s.users[j]?)) ∧
    ((update_user s id body).1 = none → (update_user s id body).2 = s) := by
  cases hf : s.users.findIdx? (fun u => u.id == id) with
  | none =>
      have hno : ∀ u ∈ s.users, (u.id == id) = false :=
        List.findIdx?_eq_none_iff.mp hf
      have hne : ¬ ∃ u ∈ s.users, u.id = id := by
        rintro ⟨u, hu, he⟩
        have := hno u hu
        simp [he] at this
      have hu : update_user s id body = (none, s) := by
        simp [update_user, hf]
      rw [hu]
      refine ⟨by simp [hne], ?_, fun _ => rfl⟩
      intro u hu2
      exact Option.noConfusion hu2
  | some idx =>
      obtain ⟨hlt, hidx⟩ := List.findIdx?_eq_some_iff_findIdx_eq.mp hf
      have hget : s.users[idx]? = some s.users[idx] :=
        List.getElem?_eq_getElem hlt
      have hwlt : List.findIdx (fun u => u.id == id) s.users <
          s.users.length := by
        rw [hidx]; exact hlt
      have hp0 : ((s.users[List.findIdx (fun u => u.id == id) s.users]).id
          == id) = true := List.findIdx_getElem (w := hwlt)
      have he2 : some (s.users[List.findIdx (fun u => u.id == id) s.users]) =
          some s.users[idx] := by
        rw [← List.getElem?_eq_getElem hwlt, ← List.getElem?_eq_getElem hlt,
          hidx]
      have hpid : (s.users[idx]).id = id := by
        have h3 := hp0
        rw [Option.some.inj he2] at h3
        simpa using h3
      have hu : update_user s id body =
          (some ⟨(s.users[idx]).id, body.name, body.email⟩,
           ⟨s.users.set idx ⟨(s.users[idx]).id, body.name, body.email⟩⟩) := by
        simp [update_user, hf, hget]
      rw [hu]
      refine ⟨?_, ?_, ?_⟩
      · constructor
        · intro _
          exact ⟨s.users[idx], List.getElem_mem hlt, hpid⟩
        · intro _
          rfl
      · intro u hu2
        injection hu2 with hu3
        subst hu3
        refine ⟨hpid, rfl, rfl, idx, s.users[idx], hget, hpid, rfl, rfl, ?_⟩
        intro j hj
        exact List.getElem?_set_ne (Ne.symm hj)
      · intro h2
        exact Option.noConfusion h2

/-- C10 witness: on the sample user list, updating id 2 returns the rebuilt
record with id 2, and updating the absent id 99 leaves the state
unchanged. -/
theorem update_user_frame_witness :
    (⟨2, "c", "c@x"⟩ : User).id = 2 ∧
    (⟨2, "c", "c@x"⟩ : User).name = "c" ∧
    (update_user exUsers 99 ⟨"c", "c@x"⟩).2 = exUsers := by
  have h2 := update_user_frame exUsers 2 ⟨"c", "c@x"⟩
  have h99 := update_user_frame exUsers 99 ⟨"c", "c@x"⟩
  obtain ⟨ha, hb, -, -⟩ := h2.2.1 ⟨2, "c", "c@x"⟩ (by decide)
  exact ⟨ha, hb, h99.2.2 (by decide)⟩

end RustWeb
